import Mathlib

/-!
# Page script of the marketing site: navigation highlighting and accordion

A shallow embedding of `src/js/script.js`.  The script registers DOM event
listeners; each listener is embedded as a function from the page state before
the event to the outcome of the listener: the page state after it, the scroll
requests it made and the exception that ended it, if any.

Modelling conventions:

* pixel quantities (`window.scrollY`, `offsetTop`, `offsetHeight`) are integers;
* a class list is reduced to the one class the script touches, `active`;
* the tracked links are the static node list
  `querySelectorAll('nav a, .footer-links a, .cta-buttons a')`, in document
  order; a link is addressed by its index in that list;
* the document is in no-quirks mode, so ids are matched case-sensitively;
* `document.querySelector` receives selector text built from page data (line 39:
  the `href` itself; line 82: the section id spliced into an attribute selector).
  The model decides the outcome itself on the fragment of the selector grammar
  described at `querySelector` and `queryTargetLink`; on every other selector
  text the outcome is whatever the browser answers, a parameter `Host` of the
  model.  The script changes no id and no attribute other than the class
  `active`, so the answer of the browser is taken as a function of the selector
  text; selector text that tests the class `active` is outside the model;
* the `.hamburger` element and the `nav ul` element are not anchors, hence not
  tracked links;
* an uncaught exception ends the listener; the mutations made before it stay.
-/

namespace Script

/-- Exceptions the listeners can raise. -/
inductive JsError where
  /-- Property access on `null`. -/
  | typeError
  /-- Selector string rejected by `querySelector`. -/
  | syntaxError
  deriving DecidableEq, Repr

/-- An element of the page that carries an `id` attribute. -/
structure Element where
  /-- Whether the element is a `section` element. -/
  isSection : Bool
  id : String
  offsetTop : Int
  offsetHeight : Int
  deriving DecidableEq, Repr

/-- A tracked anchor: an element of `navLinks`. -/
structure Link where
  /-- Value of `getAttribute('href')`; `none` is `null`. -/
  href : Option String
  /-- Whether the anchor matches `nav a`. -/
  inNav : Bool
  /-- Whether the class list holds `active`. -/
  active : Bool
  deriving DecidableEq, Repr

/-- The part of the document the listeners read and write. -/
structure Page where
  /-- Elements with an `id` attribute, in document order. -/
  elements : List Element
  /-- Value of `offsetHeight` of `.fixed-header`; `none` when there is no such element. -/
  headerHeight : Option Int
  /-- The `active` class of `.hamburger`; `none` when there is no such element. -/
  hamburger : Option Bool
  /-- The `active` class of `nav ul`; `none` when there is no such element. -/
  navMenu : Option Bool
  /-- The node list `navLinks`. -/
  navLinks : List Link
  deriving DecidableEq, Repr

/-- The element a selector finds, as far as the state of the page is concerned. -/
inductive Target where
  /-- The tracked link at this index of `navLinks`. -/
  | link (i : Nat)
  /-- The `.hamburger` element. -/
  | hamburger
  /-- The `nav ul` element. -/
  | navMenu
  /-- Any other element. -/
  | other
  deriving DecidableEq, Repr

/-- The answers of the browser to `document.querySelector` on selector text outside the
modelled fragment. -/
structure Host where
  /-- The element found for the selector of line 39, described by its geometry. -/
  select : String → Except JsError (Option Element)
  /-- The element found for the selector of line 82. -/
  selectTarget : String → Except JsError (Option Target)

/-- What one run of the click listener did. -/
structure ClickOutcome where
  /-- Page state when the listener ends. -/
  page : Page
  /-- The `top` of every `window.scrollTo` request, oldest first. -/
  scrolls : List Int
  /-- Whether `e.preventDefault()` ran. -/
  defaultPrevented : Bool
  /-- The uncaught exception, if one ended the listener. -/
  error : Option JsError
  deriving DecidableEq, Repr

/-- What one run of the scroll listener did. -/
structure ScrollOutcome where
  /-- Page state when the listener ends. -/
  page : Page
  /-- The uncaught exception, if one ended the listener. -/
  error : Option JsError
  deriving DecidableEq, Repr

/-- Test `targetId.startsWith('#')`. -/
def startsWithHash (s : String) : Bool :=
  match s.data with
  | c :: _ => c == '#'
  | [] => false

/-- ASCII letters. -/
def isLetter (c : Char) : Bool :=
  (decide (65 ≤ c.toNat) && decide (c.toNat ≤ 90)) ||
    (decide (97 ≤ c.toNat) && decide (c.toNat ≤ 122))

/-- ASCII digits. -/
def isDigit (c : Char) : Bool :=
  decide (48 ≤ c.toNat) && decide (c.toNat ≤ 57)

/-- A letter or the underscore: a character that can start a CSS identifier. -/
def isNameStart (c : Char) : Bool :=
  isLetter c || decide (c.toNat = 95)

/-- A letter, a digit, the underscore or the hyphen. -/
def isNameChar (c : Char) : Bool :=
  isNameStart c || isDigit c || decide (c.toNat = 45)

/-- CSS identifiers written in ASCII without escapes: letters, digits, underscores and
hyphens, starting with a letter or an underscore, or with a hyphen followed by a letter, an
underscore or a hyphen. -/
def isIdent : List Char → Bool
  | [] => false
  | c :: rest =>
    if c.toNat = 45 then
      (match rest with
        | d :: _ => isNameStart d || decide (d.toNat = 45)
        | [] => false) && rest.all isNameChar
    else isNameStart c && rest.all isNameChar

/-- Cut selector text at every comma. -/
def splitComma : List Char → List (List Char)
  | [] => [[]]
  | c :: cs =>
    if c.toNat = 44 then [] :: splitComma cs
    else
      match splitComma cs with
      | [] => [[c]]
      | x :: xs => (c :: x) :: xs

/-- The id an id selector `#ident` asks for; `none` when the text is not of that form. -/
def idSelector : List Char → Option String
  | [] => none
  | c :: cs => if c.toNat = 35 ∧ isIdent cs = true then some (String.mk cs) else none

/-- The ids a comma-separated list of id selectors asks for. -/
def idSelectorList : List (List Char) → Option (List String)
  | [] => some []
  | x :: xs =>
    match idSelector x, idSelectorList xs with
    | some a, some ids => some (a :: ids)
    | _, _ => none

/-- Selector text that is certainly rejected: the empty text, the bare `#`, and `#` followed
by a digit (a hash token that is not an id). -/
def rejectedHash : List Char → Bool
  | [] => true
  | [c] => decide (c.toNat = 35)
  | c :: d :: _ => decide (c.toNat = 35) && isDigit d

/-- Call `document.querySelector(sel)` of line 39.  A comma-separated list of id selectors
`#ident` finds the first element in document order with one of the ids; text that is certainly
rejected raises a `SyntaxError`; any other text is answered by the host. -/
def querySelector (host : Host) (p : Page) (sel : String) : Except JsError (Option Element) :=
  match idSelectorList (splitComma sel.data) with
  | some ids => .ok (p.elements.find? fun e => ids.contains e.id)
  | none => if rejectedHash sel.data then .error .syntaxError else host.select sel

/-- Loop `navLinks.forEach(link => link.classList.remove('active'))`. -/
def removeActiveAll (ls : List Link) : List Link :=
  ls.map fun l => { l with active := false }

/-- Call `classList.add('active')` on the link at index `i`. -/
def addActive : List Link → Nat → List Link
  | [], _ => []
  | l :: ls, 0 => { l with active := true } :: ls
  | l :: ls, i + 1 => l :: addActive ls i

/-- The index of the first anchor inside `nav` whose `href` attribute equals `value`: what the
selector `nav a[href="value"]` finds when `value` is written in it unchanged. -/
def queryNavAnchor : List Link → String → Option Nat
  | [], _ => none
  | l :: ls, value =>
    if l.inNav && l.href == some value then some 0
    else (queryNavAnchor ls value).map (· + 1)

/-- Characters that stand for themselves inside a double-quoted CSS string: every character
but NUL (0), line feed (10), form feed (12), carriage return (13), the double quote (34) and
the backslash (92). -/
def isPlainChar (c : Char) : Bool :=
  decide (c.toNat ≠ 0) && decide (c.toNat ≠ 10) && decide (c.toNat ≠ 12) &&
    decide (c.toNat ≠ 13) && decide (c.toNat ≠ 34) && decide (c.toNat ≠ 92)

/-- Ids made of letters, digits and exactly one double quote: spliced into the selector of
line 82 they end the string early and leave text the attribute selector cannot hold. -/
def brokenQuote (cs : List Char) : Bool :=
  cs.all (fun c => isLetter c || isDigit c || decide (c.toNat = 34)) &&
    decide (cs.countP (fun c => decide (c.toNat = 34)) = 1)

/-- The template literal of line 82, with the section id spliced in. -/
def navAnchorSelector (id : String) : String :=
  "nav a[href=" ++ String.singleton (Char.ofNat 34) ++ "#" ++ id ++
    String.singleton (Char.ofNat 34) ++ "]"

/-- Call `document.querySelector` of line 82 for the section id `id`.  An id of plain
characters gives the first anchor inside `nav` with href `#id`; an id broken by one double
quote raises a `SyntaxError`; on any other id the host answers for the spliced text. -/
def queryTargetLink (host : Host) (links : List Link) (id : String) :
    Except JsError (Option Target) :=
  if id.data.all isPlainChar then .ok ((queryNavAnchor links ("#" ++ id)).map Target.link)
  else if brokenQuote id.data then .error .syntaxError
  else host.selectTarget (navAnchorSelector id)

/-- Call `targetLink.classList.add('active')`. -/
def addActiveTarget (p : Page) : Target → Page
  | .link i => { p with navLinks := addActive p.navLinks i }
  | .hamburger => { p with hamburger := p.hamburger.map fun _ => true }
  | .navMenu => { p with navMenu := p.navMenu.map fun _ => true }
  | .other => p

/-- The click listener of the link at index `i` (lines 33-62). -/
def clickHandler (host : Host) (p : Page) (i : Nat) : ClickOutcome :=
  match p.navLinks[i]? with
  | none => ⟨p, [], false, none⟩
  | some link =>
    match link.href with
    | none => ⟨p, [], false, some .typeError⟩
    | some targetId =>
      if startsWithHash targetId then
        match querySelector host p targetId with
        | .error err => ⟨p, [], true, some err⟩
        | .ok none => ⟨p, [], true, none⟩
        | .ok (some targetSection) =>
          match p.headerHeight with
          | none => ⟨p, [], true, some .typeError⟩
          | some headerHeight =>
            let targetPosition := targetSection.offsetTop - headerHeight
            match p.navMenu with
            | none => ⟨p, [targetPosition], true, some .typeError⟩
            | some _ =>
              let p1 := { p with navMenu := some false }
              match p1.hamburger with
              | none => ⟨p1, [targetPosition], true, some .typeError⟩
              | some _ =>
                let p2 := { p1 with hamburger := some false }
                ⟨{ p2 with navLinks := addActive (removeActiveAll p2.navLinks) i },
                  [targetPosition], true, none⟩
      else ⟨p, [], false, none⟩

/-- Node list `document.querySelectorAll('section[id]')`. -/
def sections (p : Page) : List Element :=
  p.elements.filter fun e => e.isSection

/-- Condition `scrollPosition >= sectionTop && scrollPosition < sectionTop + sectionHeight`. -/
def inView (scrollPosition : Int) (s : Element) : Bool :=
  decide (scrollPosition ≥ s.offsetTop) && decide (scrollPosition < s.offsetTop + s.offsetHeight)

/-- Loop `sections.forEach` of the scroll listener (lines 73-87) over the sections still to
visit; an exception raised by `querySelector` ends it after the links were cleared. -/
def scrollLoop (host : Host) (scrollPosition : Int) : List Element → Page → ScrollOutcome
  | [], p => ⟨p, none⟩
  | s :: rest, p =>
    if inView scrollPosition s then
      let p1 := { p with navLinks := removeActiveAll p.navLinks }
      match queryTargetLink host p1.navLinks s.id with
      | .error err => ⟨p1, some err⟩
      | .ok none => scrollLoop host scrollPosition rest p1
      | .ok (some targetLink) => scrollLoop host scrollPosition rest (addActiveTarget p1 targetLink)
    else scrollLoop host scrollPosition rest p

/-- The scroll listener (lines 66-88). -/
def scrollHandler (host : Host) (p : Page) (scrollY : Int) : ScrollOutcome :=
  let scrollPosition := scrollY + 150
  scrollLoop host scrollPosition (sections p) p

/-- The click listener of the hamburger (lines 23-28); nothing is registered without one. -/
def hamburgerClick (p : Page) : Page × Option JsError :=
  match p.hamburger with
  | none => (p, none)
  | some h =>
    let p1 := { p with hamburger := some (!h) }
    match p1.navMenu with
    | none => (p1, some .typeError)
    | some m => ({ p1 with navMenu := some (!m) }, none)

/-- Click listener of the header of accordion item `i` (lines 97-107); the list holds the
`active` class of every `.accordion-item`. -/
def accordionClick (items : List Bool) (i : Nat) : List Bool :=
  let closed := items.mapIdx fun j b => if j ≠ i then false else b
  closed.mapIdx fun j b => if j = i then !b else b

/-- Input events of the highlighter. -/
inductive Event where
  | scroll (scrollY : Int)
  | click (i : Nat)
  deriving DecidableEq, Repr

/-- Deliver one event. -/
def step (host : Host) (p : Page) : Event → Page
  | .scroll scrollY => (scrollHandler host p scrollY).page
  | .click i => (clickHandler host p i).page

/-- Deliver a sequence of events in order. -/
def run (host : Host) (p : Page) (es : List Event) : Page :=
  es.foldl (step host) p

/-- At most one element of the list has the `active` class. -/
def AtMostOneActive (ls : List Link) : Prop :=
  ls.countP (fun l => l.active) ≤ 1

/-- The link at index `i` is the only active one. -/
def OnlyActive (ls : List Link) (i : Nat) : Prop :=
  i < ls.length ∧ ∀ j (l : Link), ls[j]? = some l → (l.active = true ↔ j = i)

/-- A host that finds nothing for selector text outside the modelled fragment. -/
def silentHost : Host where
  select := fun _ => .ok none
  selectTarget := fun _ => .ok none

/-- Sections of the spec example: `A:[0,300)`, `B:[300,700)`, `C:[700,1200)`. -/
def examplePage (flags : List Bool) (header : Int) : Page where
  elements := [⟨true, "A", 0, 300⟩, ⟨true, "B", 300, 400⟩, ⟨true, "C", 700, 500⟩]
  headerHeight := some header
  hamburger := some false
  navMenu := some false
  navLinks := (["#A", "#B", "#C"].zip flags).map fun (h, a) => ⟨some h, true, a⟩

/-- Two overlapping sections, `A:[0,500)` and `B:[100,400)`, each with an anchor in `nav`. -/
def overlapPage : Page where
  elements := [⟨true, "A", 0, 500⟩, ⟨true, "B", 100, 300⟩]
  headerHeight := some 80
  hamburger := some false
  navMenu := some false
  navLinks := [⟨some "#A", true, false⟩, ⟨some "#B", true, false⟩]

/-- A page whose footer holds a fragment link to a missing id, an external link, and a link
whose href is a list of two id selectors. -/
def mixedPage : Page where
  elements := [⟨true, "A", 0, 300⟩]
  headerHeight := some 80
  hamburger := some true
  navMenu := some true
  navLinks := [⟨some "#A", true, true⟩, ⟨some "#nowhere", false, false⟩,
    ⟨some "https://example.org/", false, false⟩, ⟨some "#A,#zz", false, false⟩]

/-- The example page without a `.hamburger` element. -/
def noHamburgerPage : Page :=
  { examplePage [true, false, false] 80 with hamburger := none }

/-- A page whose second section has the id `2nd`, which starts with a digit. -/
def digitIdPage : Page where
  elements := [⟨true, "intro", 0, 300⟩, ⟨true, "2nd", 300, 400⟩]
  headerHeight := some 80
  hamburger := some false
  navMenu := some false
  navLinks := [⟨some "#intro", true, true⟩, ⟨some "#2nd", true, false⟩]

/-- The id made of `a`, a double quote and `b`. -/
def quotedId : String :=
  String.mk ['a', Char.ofNat 34, 'b']

/-- A page whose first section has an id that holds a double quote. -/
def quotedIdPage : Page where
  elements := [⟨true, quotedId, 0, 300⟩, ⟨true, "B", 300, 400⟩]
  headerHeight := some 80
  hamburger := some false
  navMenu := some false
  navLinks := [⟨some ("#" ++ quotedId), true, false⟩, ⟨some "#B", true, true⟩]

/-- One iteration of the loop on the link list when the section id is made of plain
characters. -/
def plainStep (scrollPosition : Int) (links : List Link) (s : Element) : List Link :=
  if inView scrollPosition s then
    let cleared := removeActiveAll links
    match queryNavAnchor cleared ("#" ++ s.id) with
    | some j => addActive cleared j
    | none => cleared
  else links

/-- Effect of one `forEach` iteration whose section is in view: all tracked links are cleared,
then the first `nav` anchor pointing at `id`, if any, is marked. -/
def highlight (links : List Link) (id : String) : List Link :=
  match queryNavAnchor (removeActiveAll links) ("#" ++ id) with
  | some j => addActive (removeActiveAll links) j
  | none => removeActiveAll links

/-- The last section, in document order, whose range contains the position. -/
def lastInView (scrollPosition : Int) : List Element → Option Element
  | [] => none
  | s :: rest =>
    match lastInView scrollPosition rest with
    | some t => some t
    | none => if inView scrollPosition s then some s else none

/-- The combined effect of a run of the loop on a page: what became of the tracked links
(`none`: untouched; `some none`: cleared; `some (some i)`: cleared, then link `i` marked) and
whether the hamburger and the menu were marked. -/
def applyEffect (marked : Option (Option Nat)) (ham menu : Bool) (p : Page) : Page :=
  { p with
    navLinks :=
      match marked with
      | none => p.navLinks
      | some none => removeActiveAll p.navLinks
      | some (some i) => addActive (removeActiveAll p.navLinks) i
    hamburger := if ham then p.hamburger.map fun _ => true else p.hamburger
    navMenu := if menu then p.navMenu.map fun _ => true else p.navMenu }

/-! ## Lemmas on the link list -/

theorem length_removeActiveAll (ls : List Link) : (removeActiveAll ls).length = ls.length := by
  simp [removeActiveAll]

theorem length_addActive (ls : List Link) (i : Nat) : (addActive ls i).length = ls.length := by
  induction ls generalizing i with
  | nil => rfl
  | cons l ls ih => cases i <;> simp [addActive, ih]

theorem getElem?_removeActiveAll (ls : List Link) (j : Nat) :
    (removeActiveAll ls)[j]? = ls[j]?.map fun l => { l with active := false } := by
  simp [removeActiveAll]

theorem getElem?_addActive (ls : List Link) (i j : Nat) :
    (addActive ls i)[j]? = ls[j]?.map fun l => if j = i then { l with active := true } else l := by
  induction ls generalizing i j with
  | nil => simp [addActive]
  | cons l ls ih =>
    cases i with
    | zero =>
      cases j with
      | zero => simp [addActive]
      | succ j => simp [addActive]
    | succ i =>
      cases j with
      | zero => simp [addActive]
      | succ j => simp [addActive, ih]

theorem removeActiveAll_idem (ls : List Link) :
    removeActiveAll (removeActiveAll ls) = removeActiveAll ls := by
  simp [removeActiveAll]

theorem removeActiveAll_addActive (ls : List Link) (i : Nat) :
    removeActiveAll (addActive ls i) = removeActiveAll ls := by
  induction ls generalizing i with
  | nil => rfl
  | cons l ls ih =>
    cases i with
    | zero => simp [addActive, removeActiveAll]
    | succ i =>
      have := ih i
      simp only [removeActiveAll] at this
      simp [addActive, removeActiveAll, this]

theorem queryNavAnchor_removeActiveAll (ls : List Link) (sel : String) :
    queryNavAnchor (removeActiveAll ls) sel = queryNavAnchor ls sel := by
  induction ls with
  | nil => rfl
  | cons l ls ih =>
    simp only [removeActiveAll, List.map_cons, queryNavAnchor] at ih ⊢
    rw [ih]

theorem queryNavAnchor_some {ls : List Link} {sel : String} {j : Nat}
    (h : queryNavAnchor ls sel = some j) :
    (∃ l, ls[j]? = some l ∧ l.inNav = true ∧ l.href = some sel) ∧
      ∀ k l, k < j → ls[k]? = some l → ¬ (l.inNav = true ∧ l.href = some sel) := by
  induction ls generalizing j with
  | nil => simp [queryNavAnchor] at h
  | cons a ls ih =>
    unfold queryNavAnchor at h
    by_cases ha : (a.inNav && a.href == some sel) = true
    · rw [if_pos ha] at h
      cases h
      simp only [Bool.and_eq_true, beq_iff_eq] at ha
      exact ⟨⟨a, by simp, ha.1, ha.2⟩, fun k l hk => absurd hk (Nat.not_lt_zero k)⟩
    · rw [if_neg ha] at h
      cases hq : queryNavAnchor ls sel with
      | none => simp [hq] at h
      | some m =>
        simp only [hq, Option.map_some', Option.some.injEq] at h
        subst h
        obtain ⟨⟨l, hl, h1, h2⟩, hmin⟩ := ih hq
        refine ⟨⟨l, by simpa using hl, h1, h2⟩, ?_⟩
        intro k l0 hk hl0
        cases k with
        | zero =>
          simp only [List.getElem?_cons_zero, Option.some.injEq] at hl0
          subst hl0
          simpa [Bool.and_eq_true, beq_iff_eq] using ha
        | succ k =>
          exact hmin k l0 (Nat.lt_of_succ_lt_succ hk) (by simpa using hl0)

theorem queryNavAnchor_isSome {ls : List Link} {sel : String}
    (h : ∃ l ∈ ls, l.inNav = true ∧ l.href = some sel) :
    ∃ j, queryNavAnchor ls sel = some j := by
  induction ls with
  | nil => simp at h
  | cons a ls ih =>
    unfold queryNavAnchor
    by_cases ha : (a.inNav && a.href == some sel) = true
    · exact ⟨0, by rw [if_pos ha]⟩
    · rw [if_neg ha]
      obtain ⟨l, hl, h1, h2⟩ := h
      rcases List.mem_cons.mp hl with rfl | hl
      · exact absurd (by simp [h1, h2]) ha
      · obtain ⟨j, hj⟩ := ih ⟨l, hl, h1, h2⟩
        exact ⟨j + 1, by simp [hj]⟩

theorem onlyActive_addActive_removeActiveAll (ls : List Link) (i : Nat) (hi : i < ls.length) :
    OnlyActive (addActive (removeActiveAll ls) i) i := by
  refine ⟨by simp [length_addActive, length_removeActiveAll, hi], ?_⟩
  intro j l hl
  rw [getElem?_addActive, getElem?_removeActiveAll] at hl
  cases hj : ls[j]? with
  | none => simp [hj] at hl
  | some a =>
    simp only [hj, Option.map_some', Option.some.injEq] at hl
    by_cases hji : j = i
    · simp only [hji, if_true] at hl
      subst hl
      simp [hji]
    · simp only [hji, if_false] at hl
      subst hl
      simp [hji]

theorem countP_removeActiveAll (ls : List Link) :
    (removeActiveAll ls).countP (fun l => l.active) = 0 := by
  induction ls with
  | nil => rfl
  | cons l ls ih =>
    simp only [removeActiveAll, List.map_cons] at ih ⊢
    rw [List.countP_cons_of_neg _ _ (by simp)]
    exact ih

theorem countP_addActive_le (ls : List Link) (i : Nat) :
    (addActive ls i).countP (fun l => l.active) ≤ ls.countP (fun l => l.active) + 1 := by
  induction ls generalizing i with
  | nil => simp [addActive]
  | cons l ls ih =>
    cases i with
    | zero =>
      simp only [addActive, List.countP_cons]
      split <;> split <;> omega
    | succ i =>
      have := ih i
      simp only [addActive, List.countP_cons]
      omega

/-! ## Lemmas on the scroll listener -/

theorem plainStep_inView {pos : Int} {s : Element} (links : List Link)
    (h : inView pos s = true) : plainStep pos links s = highlight links s.id := by
  simp [plainStep, highlight, h]

theorem plainStep_not_inView {pos : Int} {s : Element} (links : List Link)
    (h : inView pos s = false) : plainStep pos links s = links := by
  simp [plainStep, h]

theorem removeActiveAll_highlight (links : List Link) (id : String) :
    removeActiveAll (highlight links id) = removeActiveAll links := by
  unfold highlight
  split
  · rw [removeActiveAll_addActive, removeActiveAll_idem]
  · rw [removeActiveAll_idem]

theorem highlight_congr {a b : List Link} (id : String)
    (h : removeActiveAll a = removeActiveAll b) : highlight a id = highlight b id := by
  unfold highlight
  rw [h]

theorem removeActiveAll_plainStep (pos : Int) (links : List Link) (s : Element) :
    removeActiveAll (plainStep pos links s) = removeActiveAll links := by
  cases h : inView pos s with
  | true => rw [plainStep_inView links h, removeActiveAll_highlight]
  | false => rw [plainStep_not_inView links h]

/-- The loop over the sections ends in the state its last matching iteration produces, and
leaves the links alone when no iteration matches. -/
theorem foldl_plainStep (pos : Int) (secs : List Element) (links : List Link) :
    secs.foldl (plainStep pos) links =
      match lastInView pos secs with
      | some s => highlight links s.id
      | none => links := by
  induction secs generalizing links with
  | nil => rfl
  | cons s rest ih =>
    rw [List.foldl_cons, ih, lastInView]
    cases hr : lastInView pos rest with
    | some t =>
      simp only
      exact highlight_congr t.id (removeActiveAll_plainStep pos links s)
    | none =>
      simp only
      cases hs : inView pos s with
      | true => simp [plainStep_inView links hs]
      | false => simp [plainStep_not_inView links hs]

theorem lastInView_none {pos : Int} {secs : List Element}
    (h : ∀ s ∈ secs, inView pos s = false) : lastInView pos secs = none := by
  induction secs with
  | nil => rfl
  | cons s rest ih =>
    rw [lastInView, ih fun t ht => h t (List.mem_cons_of_mem _ ht)]
    simp [h s (List.mem_cons_self _ _)]

theorem inView_of_lastInView_none {pos : Int} {secs : List Element}
    (h : lastInView pos secs = none) : ∀ s ∈ secs, inView pos s = false := by
  induction secs with
  | nil => intro s hs; cases hs
  | cons a rest ih =>
    rw [lastInView] at h
    cases hr : lastInView pos rest with
    | some u => simp [hr] at h
    | none =>
      simp only [hr] at h
      intro s hs
      rcases List.mem_cons.mp hs with rfl | hs
      · cases hv : inView pos s with
        | false => rfl
        | true => simp [hv] at h
      · exact ih hr s hs

theorem lastInView_append_cons {pos : Int} (pre post : List Element) {S : Element}
    (hS : inView pos S = true) (hpost : ∀ s ∈ post, inView pos s = false) :
    lastInView pos (pre ++ S :: post) = some S := by
  induction pre with
  | nil =>
    rw [List.nil_append, lastInView, lastInView_none hpost]
    simp [hS]
  | cons a pre ih =>
    rw [List.cons_append, lastInView, ih]

theorem lastInView_some {pos : Int} {secs : List Element} {t : Element}
    (h : lastInView pos secs = some t) : t ∈ secs ∧ inView pos t = true := by
  induction secs with
  | nil => simp [lastInView] at h
  | cons s rest ih =>
    rw [lastInView] at h
    cases hr : lastInView pos rest with
    | some u =>
      simp only [hr, Option.some.injEq] at h
      subst h
      exact ⟨List.mem_cons_of_mem _ (ih hr).1, (ih hr).2⟩
    | none =>
      simp only [hr] at h
      by_cases hs : inView pos s = true
      · simp only [hs, if_true, Option.some.injEq] at h
        subst h
        exact ⟨List.mem_cons_self _ _, hs⟩
      · simp [hs] at h

theorem onlyActive_highlight {links : List Link} {id : String}
    (h : ∃ l ∈ links, l.inNav = true ∧ l.href = some ("#" ++ id)) :
    ∃ i l, links[i]? = some l ∧ l.inNav = true ∧ l.href = some ("#" ++ id) ∧
      (∀ k l0, k < i → links[k]? = some l0 → ¬ (l0.inNav = true ∧ l0.href = some ("#" ++ id))) ∧
      OnlyActive (highlight links id) i := by
  obtain ⟨j, hj⟩ := queryNavAnchor_isSome h
  have hj2 := hj
  rw [← queryNavAnchor_removeActiveAll] at hj2
  obtain ⟨⟨l, hl, h1, h2⟩, hmin⟩ := queryNavAnchor_some hj
  have hlt : j < links.length := by
    rcases Nat.lt_or_ge j links.length with h | h
    · exact h
    · rw [List.getElem?_eq_none h] at hl
      cases hl
  refine ⟨j, l, hl, h1, h2, hmin, ?_⟩
  unfold highlight
  rw [hj2]
  exact onlyActive_addActive_removeActiveAll links j hlt

theorem inView_iff (pos : Int) (s : Element) :
    inView pos s = true ↔ s.offsetTop ≤ pos ∧ pos < s.offsetTop + s.offsetHeight := by
  simp [inView]

theorem queryTargetLink_plain (host : Host) (links : List Link) (id : String)
    (h : id.data.all isPlainChar = true) :
    queryTargetLink host links id = .ok ((queryNavAnchor links ("#" ++ id)).map Target.link) := by
  unfold queryTargetLink
  rw [if_pos h]

/-- On sections whose ids, when in view, are made of plain characters, the loop raises nothing
and acts on the link list alone. -/
theorem scrollLoop_plain (host : Host) (pos : Int) (secs : List Element) (p : Page)
    (h : ∀ s ∈ secs, inView pos s = true → s.id.data.all isPlainChar = true) :
    scrollLoop host pos secs p =
      ⟨{ p with navLinks := secs.foldl (plainStep pos) p.navLinks }, none⟩ := by
  induction secs generalizing p with
  | nil => rfl
  | cons s rest ih =>
    have hrest : ∀ t ∈ rest, inView pos t = true → t.id.data.all isPlainChar = true :=
      fun t ht => h t (List.mem_cons_of_mem _ ht)
    unfold scrollLoop
    cases hv : inView pos s with
    | false =>
      rw [if_neg (by simp), ih p hrest, List.foldl_cons, plainStep_not_inView _ hv]
    | true =>
      rw [if_pos rfl]
      simp only [queryTargetLink_plain host _ s.id (h s (List.mem_cons_self _ _) hv)]
      rw [List.foldl_cons]
      simp only [plainStep, hv, if_true]
      cases queryNavAnchor (removeActiveAll p.navLinks) ("#" ++ s.id) with
      | none =>
        simp only [Option.map_none']
        rw [ih _ hrest]
      | some j =>
        simp only [Option.map_some', addActiveTarget]
        rw [ih _ hrest]

theorem scrollHandler_plain (host : Host) (p : Page) (scrollY : Int)
    (h : ∀ s ∈ sections p, inView (scrollY + 150) s = true →
      s.id.data.all isPlainChar = true) :
    scrollHandler host p scrollY =
      ⟨{ p with
          navLinks :=
            match lastInView (scrollY + 150) (sections p) with
            | some s => highlight p.navLinks s.id
            | none => p.navLinks },
        none⟩ := by
  unfold scrollHandler
  simp only
  rw [scrollLoop_plain host _ _ p h, foldl_plainStep]

theorem atMostOneActive_of_countP_zero {ls : List Link}
    (h : ls.countP (fun l => l.active) = 0) (i : Nat) : AtMostOneActive (addActive ls i) := by
  unfold AtMostOneActive
  exact (countP_addActive_le ls i).trans (by rw [h])

theorem atMostOneActive_scrollLoop (host : Host) (pos : Int) (secs : List Element) (p : Page)
    (h : AtMostOneActive p.navLinks) :
    AtMostOneActive (scrollLoop host pos secs p).page.navLinks := by
  induction secs generalizing p with
  | nil => exact h
  | cons s rest ih =>
    unfold scrollLoop
    have hclear : AtMostOneActive (removeActiveAll p.navLinks) := by
      unfold AtMostOneActive
      rw [countP_removeActiveAll]
      exact Nat.zero_le 1
    cases hv : inView pos s with
    | false =>
      rw [if_neg (by simp)]
      exact ih p h
    | true =>
      rw [if_pos rfl]
      simp only
      cases queryTargetLink host (removeActiveAll p.navLinks) s.id with
      | error err => exact hclear
      | ok found =>
        cases found with
        | none => exact ih _ hclear
        | some t =>
          apply ih
          cases t with
          | link i => exact atMostOneActive_of_countP_zero (countP_removeActiveAll _) i
          | hamburger => exact hclear
          | navMenu => exact hclear
          | other => exact hclear

theorem applyEffect_none (p : Page) : applyEffect none false false p = p := by
  cases p
  rfl

theorem removeActiveAll_applyEffect (marked : Option (Option Nat)) (ham menu : Bool) (p : Page) :
    removeActiveAll (applyEffect marked ham menu p).navLinks = removeActiveAll p.navLinks := by
  unfold applyEffect
  rcases marked with _ | _ | i
  · rfl
  · exact removeActiveAll_idem _
  · exact (removeActiveAll_addActive _ _).trans (removeActiveAll_idem _)

theorem applyEffect_idem (marked : Option (Option Nat)) (ham menu : Bool) (p : Page) :
    applyEffect marked ham menu (applyEffect marked ham menu p) = applyEffect marked ham menu p := by
  have hl := removeActiveAll_applyEffect marked ham menu p
  unfold applyEffect at hl ⊢
  rcases marked with _ | _ | i <;> cases ham <;> cases menu <;>
    cases p.hamburger <;> cases p.navMenu <;>
    simp_all [removeActiveAll_idem, removeActiveAll_addActive]

/-- Clearing the links and then running an effect is one effect. -/
theorem applyEffect_after_clear (marked : Option (Option Nat)) (ham menu : Bool) :
    ∃ marked1, ∀ p : Page,
      applyEffect marked ham menu { p with navLinks := removeActiveAll p.navLinks }
        = applyEffect marked1 ham menu p := by
  rcases marked with _ | _ | i
  · exact ⟨some none, fun p => rfl⟩
  · exact ⟨some none, fun p => by simp [applyEffect, removeActiveAll_idem]⟩
  · exact ⟨some (some i), fun p => by simp [applyEffect, removeActiveAll_idem]⟩

/-- Clearing the links, marking one target and then running an effect is one effect. -/
theorem applyEffect_after_target (marked : Option (Option Nat)) (ham menu : Bool) (t : Target) :
    ∃ marked1 ham1 menu1, ∀ p : Page,
      applyEffect marked ham menu
          (addActiveTarget { p with navLinks := removeActiveAll p.navLinks } t)
        = applyEffect marked1 ham1 menu1 p := by
  cases t with
  | link j =>
    rcases marked with _ | _ | i
    · exact ⟨some (some j), ham, menu, fun p => rfl⟩
    · exact ⟨some none, ham, menu, fun p => by
        simp [applyEffect, addActiveTarget, removeActiveAll_idem, removeActiveAll_addActive]⟩
    · exact ⟨some (some i), ham, menu, fun p => by
        simp [applyEffect, addActiveTarget, removeActiveAll_idem, removeActiveAll_addActive]⟩
  | hamburger =>
    obtain ⟨m1, h1⟩ := applyEffect_after_clear marked true menu
    refine ⟨m1, true, menu, fun p => ?_⟩
    rw [← h1 p]
    cases ham <;> cases hp : p.hamburger <;> simp [applyEffect, addActiveTarget, hp]
  | navMenu =>
    obtain ⟨m1, h1⟩ := applyEffect_after_clear marked ham true
    refine ⟨m1, ham, true, fun p => ?_⟩
    rw [← h1 p]
    cases menu <;> cases hp : p.navMenu <;> simp [applyEffect, addActiveTarget, hp]
  | other =>
    obtain ⟨m1, h1⟩ := applyEffect_after_clear marked ham menu
    exact ⟨m1, ham, menu, fun p => h1 p⟩

/-- The loop acts on every page with the same links, flags apart, through one effect. -/
theorem scrollLoop_effect (host : Host) (pos : Int) (secs : List Element) (c : List Link) :
    ∃ marked ham menu err, ∀ p : Page, removeActiveAll p.navLinks = c →
      scrollLoop host pos secs p = ⟨applyEffect marked ham menu p, err⟩ := by
  induction secs with
  | nil => exact ⟨none, false, false, none, fun p _ => by rw [applyEffect_none]; rfl⟩
  | cons s rest ih =>
    obtain ⟨m, hb, mb, err, H⟩ := ih
    cases hv : inView pos s with
    | false =>
      refine ⟨m, hb, mb, err, fun p hp => ?_⟩
      unfold scrollLoop
      rw [if_neg (by simp [hv])]
      exact H p hp
    | true =>
      cases hq : queryTargetLink host c s.id with
      | error e =>
        refine ⟨some none, false, false, some e, fun p hp => ?_⟩
        unfold scrollLoop
        rw [if_pos hv]
        simp only [hp, hq]
        cases p
        simp_all [applyEffect]
      | ok found =>
        cases found with
        | none =>
          obtain ⟨m1, h1⟩ := applyEffect_after_clear m hb mb
          refine ⟨m1, hb, mb, err, fun p hp => ?_⟩
          unfold scrollLoop
          rw [if_pos hv]
          simp only [hp, hq]
          rw [← hp, H _ (by simp only [removeActiveAll_idem]; exact hp), h1 p]
        | some t =>
          obtain ⟨m1, hb1, mb1, h1⟩ := applyEffect_after_target m hb mb t
          refine ⟨m1, hb1, mb1, err, fun p hp => ?_⟩
          unfold scrollLoop
          rw [if_pos hv]
          simp only [hp, hq]
          have hskel : removeActiveAll
              (addActiveTarget { p with navLinks := removeActiveAll p.navLinks } t).navLinks
              = c := by
            cases t <;>
              simp only [addActiveTarget, removeActiveAll_idem, removeActiveAll_addActive] <;>
              exact hp
          rw [← hp, H _ hskel, h1 p]

theorem scrollHandler_idem (host : Host) (p : Page) (y : Int) :
    scrollHandler host (scrollHandler host p y).page y = scrollHandler host p y := by
  obtain ⟨m, hb, mb, err, H⟩ :=
    scrollLoop_effect host (y + 150) (sections p) (removeActiveAll p.navLinks)
  have h1 : scrollHandler host p y = ⟨applyEffect m hb mb p, err⟩ := H p rfl
  rw [h1]
  have h2 : scrollHandler host (applyEffect m hb mb p) y
      = ⟨applyEffect m hb mb (applyEffect m hb mb p), err⟩ :=
    H (applyEffect m hb mb p) (removeActiveAll_applyEffect m hb mb p)
  rw [h2, applyEffect_idem]

/-! ## Lemmas on the click listener -/

theorem startsWithHash_append (id : String) : startsWithHash ("#" ++ id) = true := by
  have h : ("#" ++ id).data = '#' :: id.data := by simp
  simp [startsWithHash, h]

theorem isNameChar_of_isIdent {cs : List Char} (h : isIdent cs = true) :
    ∀ c ∈ cs, isNameChar c = true := by
  cases cs with
  | nil => intro c hc; cases hc
  | cons a rest =>
    intro c hc
    by_cases ha : a.toNat = 45
    · simp only [isIdent, if_pos ha, Bool.and_eq_true, List.all_eq_true] at h
      rcases List.mem_cons.mp hc with rfl | hc
      · simp [isNameChar, ha]
      · exact h.2 c hc
    · simp only [isIdent, if_neg ha, Bool.and_eq_true, List.all_eq_true] at h
      rcases List.mem_cons.mp hc with rfl | hc
      · simp [isNameChar, h.1]
      · exact h.2 c hc

theorem isPlainChar_of_isNameChar {c : Char} (h : isNameChar c = true) :
    isPlainChar c = true := by
  simp only [isNameChar, isNameStart, isLetter, isDigit, Bool.or_eq_true, Bool.and_eq_true,
    decide_eq_true_eq] at h
  simp only [isPlainChar, Bool.and_eq_true, decide_eq_true_eq]
  omega

theorem all_isPlainChar_of_isIdent {cs : List Char} (h : isIdent cs = true) :
    cs.all isPlainChar = true := by
  rw [List.all_eq_true]
  exact fun c hc => isPlainChar_of_isNameChar (isNameChar_of_isIdent h c hc)

theorem splitComma_of_no_comma (cs : List Char) (h : ∀ c ∈ cs, c.toNat ≠ 44) :
    splitComma cs = [cs] := by
  induction cs with
  | nil => rfl
  | cons a rest ih =>
    unfold splitComma
    rw [if_neg (h a (List.mem_cons_self _ _)), ih fun c hc => h c (List.mem_cons_of_mem _ hc)]

/-- The selector `#id` for an identifier `id` finds the first element with that id. -/
theorem querySelector_ident (host : Host) (p : Page) (id : String)
    (hid : isIdent id.data = true) :
    querySelector host p ("#" ++ id) = .ok (p.elements.find? fun e => e.id == id) := by
  have hdata : ("#" ++ id).data = '#' :: id.data := by simp
  have hsplit : splitComma ('#' :: id.data) = ['#' :: id.data] := by
    apply splitComma_of_no_comma
    intro c hc
    rcases List.mem_cons.mp hc with rfl | hc
    · decide
    · have := isNameChar_of_isIdent hid c hc
      simp only [isNameChar, isNameStart, isLetter, isDigit, Bool.or_eq_true, Bool.and_eq_true,
        decide_eq_true_eq] at this
      omega
  have hsel : idSelector ('#' :: id.data) = some id := by
    rw [idSelector, if_pos ⟨by decide, hid⟩]
  unfold querySelector
  rw [hdata, hsplit]
  simp only [idSelectorList, hsel]
  congr 2
  funext e
  simp only [List.contains, List.elem]
  cases e.id == id <;> rfl

theorem querySelector_congr (host : Host) {p q : Page} (sel : String)
    (h : q.elements = p.elements) : querySelector host q sel = querySelector host p sel := by
  unfold querySelector
  rw [h]

theorem find?_first {α : Type} (q : α → Bool) (before after : List α) (a : α)
    (ha : q a = true) (hbefore : ∀ x ∈ before, q x = false) :
    (before ++ a :: after).find? q = some a := by
  induction before with
  | nil => simp [ha]
  | cons x before ih =>
    rw [List.cons_append, List.find?_cons_of_neg _ (by simp [hbefore x (List.mem_cons_self _ _)])]
    exact ih fun y hy => hbefore y (List.mem_cons_of_mem _ hy)

/-- Outcome of a click on a link whose selector finds `S`, with the header present. -/
theorem clickHandler_found {host : Host} {p : Page} {i : Nat} {l : Link} {t : String}
    {S : Element} {h : Int}
    (hl : p.navLinks[i]? = some l) (hh : l.href = some t) (hs : startsWithHash t = true)
    (hq : querySelector host p t = .ok (some S)) (hhead : p.headerHeight = some h) :
    clickHandler host p i =
      match p.navMenu with
      | none => ⟨p, [S.offsetTop - h], true, some .typeError⟩
      | some _ =>
        match p.hamburger with
        | none => ⟨{ p with navMenu := some false }, [S.offsetTop - h], true, some .typeError⟩
        | some _ =>
          ⟨{ p with navMenu := some false, hamburger := some false,
                    navLinks := addActive (removeActiveAll p.navLinks) i },
            [S.offsetTop - h], true, none⟩ := by
  unfold clickHandler
  simp only [hl, hh, hs, if_true, hq, hhead]

/-- Outcome of a click on a link whose fragment is the identifier id of `S`, the first element
with it. -/
theorem clickHandler_resolved {host : Host} {p : Page} {i : Nat} {l : Link} {S : Element}
    {h : Int}
    (hl : p.navLinks[i]? = some l) (hh : l.href = some ("#" ++ S.id))
    (hid : isIdent S.id.data = true)
    (hfind : (p.elements.find? fun e => e.id == S.id) = some S)
    (hhead : p.headerHeight = some h) :
    clickHandler host p i =
      match p.navMenu with
      | none => ⟨p, [S.offsetTop - h], true, some .typeError⟩
      | some _ =>
        match p.hamburger with
        | none => ⟨{ p with navMenu := some false }, [S.offsetTop - h], true, some .typeError⟩
        | some _ =>
          ⟨{ p with navMenu := some false, hamburger := some false,
                    navLinks := addActive (removeActiveAll p.navLinks) i },
            [S.offsetTop - h], true, none⟩ :=
  clickHandler_found hl hh (startsWithHash_append S.id)
    ((querySelector_ident host p S.id hid).trans (by rw [hfind])) hhead

/-- Outcome of a click on a link whose selector finds no element. -/
theorem clickHandler_not_found {host : Host} {p : Page} {i : Nat}
    (h : ∀ l t, p.navLinks[i]? = some l → l.href = some t → startsWithHash t = true →
      ∀ S, querySelector host p t ≠ .ok (some S)) :
    (clickHandler host p i).page = p ∧ (clickHandler host p i).scrolls = [] := by
  cases hl : p.navLinks[i]? with
  | none => simp [clickHandler, hl]
  | some l =>
    cases hh : l.href with
    | none => simp [clickHandler, hl, hh]
    | some t =>
      cases hs : startsWithHash t with
      | false => simp [clickHandler, hl, hh, hs]
      | true =>
        cases hq : querySelector host p t with
        | error err => simp [clickHandler, hl, hh, hs, hq]
        | ok found =>
          cases found with
          | none => simp [clickHandler, hl, hh, hs, hq]
          | some S => exact absurd hq (h l t hl hh hs S)

/-- The three page states a click can end in. -/
theorem clickHandler_page (host : Host) (p : Page) (i : Nat) :
    (clickHandler host p i).page = p ∨
      (clickHandler host p i).page = { p with navMenu := some false } ∨
      (clickHandler host p i).page =
        { p with navMenu := some false, hamburger := some false,
                 navLinks := addActive (removeActiveAll p.navLinks) i } := by
  unfold clickHandler
  dsimp only
  repeat' split
  all_goals first
    | exact Or.inl rfl
    | exact Or.inr (Or.inl rfl)
    | exact Or.inr (Or.inr rfl)

theorem clickHandler_elements (host : Host) (p : Page) (i : Nat) :
    (clickHandler host p i).page.elements = p.elements := by
  rcases clickHandler_page host p i with h | h | h <;> rw [h]

theorem clickHandler_removeActiveAll (host : Host) (p : Page) (i : Nat) :
    removeActiveAll (clickHandler host p i).page.navLinks = removeActiveAll p.navLinks := by
  rcases clickHandler_page host p i with h | h | h <;> rw [h]
  exact (removeActiveAll_addActive _ _).trans (removeActiveAll_idem _)

theorem atMostOneActive_step (host : Host) (p : Page) (e : Event)
    (h : AtMostOneActive p.navLinks) : AtMostOneActive (step host p e).navLinks := by
  cases e with
  | scroll y => exact atMostOneActive_scrollLoop host _ _ p h
  | click i =>
    simp only [step]
    rcases clickHandler_page host p i with hp | hp | hp <;> rw [hp]
    · exact h
    · exact h
    · exact atMostOneActive_of_countP_zero (countP_removeActiveAll _) i

theorem clickHandler_idem (host : Host) (p : Page) (i : Nat) :
    (clickHandler host (clickHandler host p i).page i).page = (clickHandler host p i).page := by
  cases hl : p.navLinks[i]? with
  | none => simp [clickHandler, hl]
  | some l =>
    cases hh : l.href with
    | none => simp [clickHandler, hl, hh]
    | some t =>
      cases hs : startsWithHash t with
      | false => simp [clickHandler, hl, hh, hs]
      | true =>
        cases hq : querySelector host p t with
        | error err => simp [clickHandler, hl, hh, hs, hq]
        | ok o =>
          cases o with
          | none => simp [clickHandler, hl, hh, hs, hq]
          | some S =>
            cases hhd : p.headerHeight with
            | none => simp [clickHandler, hl, hh, hs, hq, hhd]
            | some h =>
              have e1 := clickHandler_found hl hh hs hq hhd
              cases hm : p.navMenu with
              | none => simp [e1, hm]
              | some m =>
                cases hb : p.hamburger with
                | none =>
                  have h1 : (clickHandler host p i).page = { p with navMenu := some false } := by
                    rw [e1, hm, hb]
                  have e2 := clickHandler_found (p := { p with navMenu := some false }) (i := i)
                    hl hh hs ((querySelector_congr host t rfl).trans hq) hhd
                  rw [h1, e2]
                  simp only [hb]
                | some b =>
                  have h1 : (clickHandler host p i).page =
                      { p with navMenu := some false, hamburger := some false,
                               navLinks := addActive (removeActiveAll p.navLinks) i } := by
                    rw [e1, hm, hb]
                  have hl2 : (addActive (removeActiveAll p.navLinks) i)[i]?
                      = some { l with active := true } := by
                    rw [getElem?_addActive, getElem?_removeActiveAll, hl]
                    simp
                  have e2 := clickHandler_found
                    (p := { p with navMenu := some false, hamburger := some false,
                                   navLinks := addActive (removeActiveAll p.navLinks) i })
                    (i := i) hl2 hh hs ((querySelector_congr host t rfl).trans hq) hhd
                  rw [h1, e2]
                  simp only [removeActiveAll_addActive, removeActiveAll_idem]

/-! ## Lemmas on the accordion -/

theorem getElem?_accordionClick (items : List Bool) (i j : Nat) :
    (accordionClick items i)[j]? = items[j]?.map fun b => if j = i then !b else false := by
  unfold accordionClick
  simp only [List.getElem?_mapIdx, Option.map_map]
  cases items[j]? with
  | none => rfl
  | some b =>
    by_cases hji : j = i <;> simp [hji]

theorem count_true_le_one (L : List Bool) (i : Nat)
    (h : ∀ j b, j ≠ i → L[j]? = some b → b = false) : L.count true ≤ 1 := by
  induction L generalizing i with
  | nil => simp
  | cons b rest ih =>
    cases i with
    | zero =>
      have hrest : rest.count true = 0 := by
        rw [List.count_eq_zero]
        intro hmem
        obtain ⟨n, hn⟩ := List.mem_iff_getElem?.mp hmem
        have := h (n + 1) true (Nat.succ_ne_zero n) (by simpa using hn)
        cases this
      rw [List.count_cons, hrest]
      split <;> omega
    | succ i =>
      have hb : b = false := h 0 b (Nat.succ_ne_zero i).symm (by simp)
      have hrest := ih i fun j c hj hc => h (j + 1) c (by omega) (by simpa using hc)
      subst hb
      simpa using hrest

/-! ## The claims -/

/-- C1, as stated, fails: on a page whose first section `[0,300)` has an id made of `a`, a
double quote and `b`, and an anchor inside `nav` with href `#` followed by that id, the
effective position 150 lies in that section alone,
and the scroll listener clears every link and then raises a `SyntaxError` at `querySelector`:
no tracked link is active. -/
theorem scroll_quoted_id_counterexample :
    (sections quotedIdPage).map (inView (0 + 150)) = [true, false] ∧
      queryNavAnchor quotedIdPage.navLinks ("#" ++ quotedId) = some 0 ∧
      (scrollHandler silentHost quotedIdPage 0).error = some JsError.syntaxError ∧
      (scrollHandler silentHost quotedIdPage 0).page.navLinks.map (fun l => l.active)
        = [false, false] := by
  decide

/-- C1, amended: when the effective position `scrollY + 150` lies in the range of exactly one
section `S` (`S` is a section in view, and every section in view is `S`), the id of `S` holds
no double quote, backslash, line feed, carriage return, form feed or NUL, and some anchor
inside `nav` has href `#` followed by the id of `S`, then the scroll listener raises nothing
and afterwards exactly one tracked link is active: the first anchor inside `nav` with that
href. -/
theorem scroll_selects_containing_section (host : Host) (p : Page) (scrollY : Int)
    (S : Element) (hS : S ∈ sections p) (hin : inView (scrollY + 150) S = true)
    (hone : ∀ s ∈ sections p, inView (scrollY + 150) s = true → s = S)
    (hplain : S.id.data.all isPlainChar = true)
    (hanchor : ∃ l ∈ p.navLinks, l.inNav = true ∧ l.href = some ("#" ++ S.id)) :
    (scrollHandler host p scrollY).error = none ∧
      ∃ i l, p.navLinks[i]? = some l ∧ l.inNav = true ∧ l.href = some ("#" ++ S.id) ∧
        (∀ k l0, k < i → p.navLinks[k]? = some l0 →
          ¬ (l0.inNav = true ∧ l0.href = some ("#" ++ S.id))) ∧
        OnlyActive (scrollHandler host p scrollY).page.navLinks i := by
  have hall : ∀ s ∈ sections p, inView (scrollY + 150) s = true →
      s.id.data.all isPlainChar = true := by
    intro s hs hv
    rw [hone s hs hv]
    exact hplain
  rw [scrollHandler_plain host p scrollY hall]
  refine ⟨rfl, ?_⟩
  cases hlast : lastInView (scrollY + 150) (sections p) with
  | none =>
    rw [inView_of_lastInView_none hlast S hS] at hin
    cases hin
  | some t =>
    obtain ⟨ht, hv⟩ := lastInView_some hlast
    have := hone t ht hv
    subst this
    exact onlyActive_highlight hanchor

/-- Witness of C1, amended: the end-to-end example of the spec, `scrollY = 200`, section `B`. -/
theorem scroll_selects_containing_section_witness :
    (scrollHandler silentHost (examplePage [true, false, true] 150) 200).page.navLinks.map
        (fun l => l.active) = [false, true, false] ∧
      (scrollHandler silentHost (examplePage [true, false, true] 150) 200).error = none ∧
      ∃ i l, (examplePage [true, false, true] 150).navLinks[i]? = some l ∧ l.inNav = true ∧
        l.href = some ("#" ++ (Element.mk true "B" 300 400).id) ∧
        (∀ k l0, k < i → (examplePage [true, false, true] 150).navLinks[k]? = some l0 →
          ¬ (l0.inNav = true ∧ l0.href = some ("#" ++ (Element.mk true "B" 300 400).id))) ∧
        OnlyActive
          (scrollHandler silentHost (examplePage [true, false, true] 150) 200).page.navLinks i :=
  ⟨by decide,
    scroll_selects_containing_section silentHost (examplePage [true, false, true] 150) 200
      ⟨true, "B", 300, 400⟩ (by decide) (by decide) (by decide) (by decide)
      ⟨⟨some "#B", true, false⟩, by decide, rfl, rfl⟩⟩

/-- C2, as stated, fails: with section `A:[0,300)` highlighted and the effective position 2150
in no section, the scroll listener leaves the link of `A` active. -/
theorem scroll_outside_counterexample :
    (∀ s ∈ sections (examplePage [true, false, false] 150), inView (2000 + 150) s = false) ∧
      (scrollHandler silentHost (examplePage [true, false, false] 150) 2000).page.navLinks.map
        (fun l => l.active) = [true, false, false] := by
  decide

/-- C2, amended: when the effective position `scrollY + 150` lies in no section, the scroll
listener changes nothing and raises nothing: every tracked link keeps the active flag it
had. -/
theorem scroll_outside_changes_nothing (host : Host) (p : Page) (scrollY : Int)
    (hout : ∀ s ∈ sections p, inView (scrollY + 150) s = false) :
    scrollHandler host p scrollY = ⟨p, none⟩ := by
  have hall : ∀ s ∈ sections p, inView (scrollY + 150) s = true →
      s.id.data.all isPlainChar = true := by
    intro s hs hv
    rw [hout s hs] at hv
    cases hv
  rw [scrollHandler_plain host p scrollY hall, lastInView_none hout]

/-- Witness of C2, amended: the example page scrolled below its last section. -/
theorem scroll_outside_changes_nothing_witness :
    scrollHandler silentHost (examplePage [false, true, false] 150) 5000
      = ⟨examplePage [false, true, false] 150, none⟩ :=
  scroll_outside_changes_nothing silentHost (examplePage [false, true, false] 150) 5000
    (by decide)

/-- C8, as stated, fails: sections `A:[0,500)` and `B:[100,400)` both contain the effective
position 200 and both have an anchor, and the anchor left active is that of `B`, the later one;
the anchor of `A`, the first in document order, is inactive. -/
theorem scroll_overlap_counterexample :
    (sections overlapPage).map (inView (50 + 150)) = [true, true] ∧
      queryNavAnchor overlapPage.navLinks "#A" = some 0 ∧
      queryNavAnchor overlapPage.navLinks "#B" = some 1 ∧
      (scrollHandler silentHost overlapPage 50).page.navLinks.map (fun l => l.active)
        = [false, true] := by
  decide

/-- C8, amended: when `S` is the last section in document order whose range contains the
effective position `scrollY + 150`, the ids of `S` and of every earlier section in view hold
no double quote, backslash, line feed, carriage return, form feed or NUL, and some anchor
inside `nav` has href `#` followed by the id of `S`, then the scroll listener raises nothing
and afterwards the only active tracked link is the first anchor inside `nav` with that
href. -/
theorem scroll_overlap_last_wins (host : Host) (p : Page) (scrollY : Int) (S : Element)
    (before after : List Element) (hsec : sections p = before ++ S :: after)
    (hin : inView (scrollY + 150) S = true)
    (hafter : ∀ s ∈ after, inView (scrollY + 150) s = false)
    (hplain : S.id.data.all isPlainChar = true)
    (hplainBefore : ∀ s ∈ before, inView (scrollY + 150) s = true →
      s.id.data.all isPlainChar = true)
    (hanchor : ∃ l ∈ p.navLinks, l.inNav = true ∧ l.href = some ("#" ++ S.id)) :
    (scrollHandler host p scrollY).error = none ∧
      ∃ i l, p.navLinks[i]? = some l ∧ l.inNav = true ∧ l.href = some ("#" ++ S.id) ∧
        (∀ k l0, k < i → p.navLinks[k]? = some l0 →
          ¬ (l0.inNav = true ∧ l0.href = some ("#" ++ S.id))) ∧
        OnlyActive (scrollHandler host p scrollY).page.navLinks i := by
  have hall : ∀ s ∈ sections p, inView (scrollY + 150) s = true →
      s.id.data.all isPlainChar = true := by
    intro s hs hv
    rw [hsec, List.mem_append, List.mem_cons] at hs
    rcases hs with hs | rfl | hs
    · exact hplainBefore s hs hv
    · exact hplain
    · rw [hafter s hs] at hv
      cases hv
  rw [scrollHandler_plain host p scrollY hall, hsec,
    lastInView_append_cons before after hin hafter]
  exact ⟨rfl, onlyActive_highlight hanchor⟩

/-- Witness of C8, amended: on the overlapping page the anchor of `B` wins. -/
theorem scroll_overlap_last_wins_witness :
    (scrollHandler silentHost overlapPage 50).error = none ∧
      ∃ i l, overlapPage.navLinks[i]? = some l ∧ l.inNav = true ∧
        l.href = some ("#" ++ (Element.mk true "B" 100 300).id) ∧
        (∀ k l0, k < i → overlapPage.navLinks[k]? = some l0 →
          ¬ (l0.inNav = true ∧ l0.href = some ("#" ++ (Element.mk true "B" 100 300).id))) ∧
        OnlyActive (scrollHandler silentHost overlapPage 50).page.navLinks i :=
  scroll_overlap_last_wins silentHost overlapPage 50 ⟨true, "B", 100, 300⟩
    [⟨true, "A", 0, 500⟩] [] (by decide) (by decide) (by decide) (by decide) (by decide)
    ⟨⟨some "#B", true, false⟩, by decide, rfl, rfl⟩

/-- C3, as stated, fails: on a page with an element of id `2nd`, the fixed header, the
hamburger and the nav menu, a click on the link with href `#2nd` raises a `SyntaxError` at
`document.querySelector('#2nd')`, requests no scroll and leaves every flag as it was: the
clicked link stays inactive and the link of the first section stays active. -/
theorem click_digit_id_counterexample :
    (∃ S ∈ digitIdPage.elements, digitIdPage.navLinks[1]?.bind (fun l => l.href)
        = some ("#" ++ S.id)) ∧
      digitIdPage.headerHeight.isSome = true ∧ digitIdPage.hamburger.isSome = true ∧
      digitIdPage.navMenu.isSome = true ∧
      (clickHandler silentHost digitIdPage 1).error = some JsError.syntaxError ∧
      (clickHandler silentHost digitIdPage 1).scrolls = [] ∧
      (clickHandler silentHost digitIdPage 1).page.navLinks.map (fun l => l.active)
        = [true, false] := by
  decide

/-- C3, amended: take a tracked link whose href is `#` followed by the id of an element `S`
such that `document.querySelector` finds `S` for that href: either the id is an identifier
(ASCII letters, digits, underscores, hyphens, not starting with a digit or a hyphen and a
digit) and `S` is the first element with it, or the browser answers `S` for the href.  With
the fixed header, the hamburger and the nav menu present, a click requests exactly one scroll,
to `S.offsetTop - headerHeight` without clamping, raises nothing, closes the menu, and leaves
the clicked link as the only active tracked link. -/
theorem click_resolving_link (host : Host) (p : Page) (i : Nat) (l : Link) (S : Element)
    (h : Int) (hb hm : Bool)
    (hl : p.navLinks[i]? = some l) (hh : l.href = some ("#" ++ S.id))
    (hres : (isIdent S.id.data = true ∧
        ∃ before after, p.elements = before ++ S :: after ∧ ∀ e ∈ before, e.id ≠ S.id) ∨
      querySelector host p ("#" ++ S.id) = .ok (some S))
    (hhead : p.headerHeight = some h) (hham : p.hamburger = some hb)
    (hmenu : p.navMenu = some hm) :
    (clickHandler host p i).scrolls = [S.offsetTop - h] ∧
      (clickHandler host p i).error = none ∧
      (clickHandler host p i).page.hamburger = some false ∧
      (clickHandler host p i).page.navMenu = some false ∧
      OnlyActive (clickHandler host p i).page.navLinks i := by
  have hq : querySelector host p ("#" ++ S.id) = .ok (some S) := by
    rcases hres with ⟨hid, before, after, hel, hbefore⟩ | hq
    · rw [querySelector_ident host p S.id hid, hel,
        find?_first _ before after S (by simp) fun e he => by simpa using hbefore e he]
    · exact hq
  rw [clickHandler_found hl hh (startsWithHash_append S.id) hq hhead]
  simp only [hmenu, hham]
  refine ⟨trivial, trivial, trivial, trivial, ?_⟩
  apply onlyActive_addActive_removeActiveAll
  rcases Nat.lt_or_ge i p.navLinks.length with hlt | hge
  · exact hlt
  · rw [List.getElem?_eq_none hge] at hl
    cases hl

/-- Witness of C3, amended: the end-to-end example of the spec; `A.top = 0` and a header of
height 150 give the requested target `-150`, with `A` active and `B` inactive. -/
theorem click_resolving_link_witness :
    (clickHandler silentHost (examplePage [false, true, false] 150) 0).page.navLinks.map
        (fun l => l.active) = [true, false, false] ∧
      (clickHandler silentHost (examplePage [false, true, false] 150) 0).scrolls
        = [(Element.mk true "A" 0 300).offsetTop - 150] ∧
      (clickHandler silentHost (examplePage [false, true, false] 150) 0).error = none ∧
      (clickHandler silentHost (examplePage [false, true, false] 150) 0).page.hamburger
        = some false ∧
      (clickHandler silentHost (examplePage [false, true, false] 150) 0).page.navMenu
        = some false ∧
      OnlyActive
        (clickHandler silentHost (examplePage [false, true, false] 150) 0).page.navLinks 0 :=
  ⟨by decide,
    click_resolving_link silentHost (examplePage [false, true, false] 150) 0
      ⟨some "#A", true, false⟩ ⟨true, "A", 0, 300⟩ 150 false false (by decide) (by decide)
      (Or.inl ⟨by decide, [], [⟨true, "B", 300, 400⟩, ⟨true, "C", 700, 500⟩], by decide,
        by decide⟩)
      rfl rfl rfl⟩

/-- C5, as stated, fails: no element of the page has the id `A,#zz`, yet a click on the link
with href `#A,#zz` finds the element `A` (the href is a list of two id selectors), requests
the scroll to `0 - 80`, closes the menu and marks the clicked link. -/
theorem click_selector_list_counterexample :
    mixedPage.navLinks[3]?.bind (fun l => l.href) = some ("#" ++ "A,#zz") ∧
      (∀ e ∈ mixedPage.elements, e.id ≠ "A,#zz") ∧
      (clickHandler silentHost mixedPage 3).scrolls = [0 - 80] ∧
      (clickHandler silentHost mixedPage 3).page.navMenu = some false ∧
      (clickHandler silentHost mixedPage 3).page.navLinks.map (fun l => l.active)
        = [false, false, false, true] := by
  decide

/-- C5, amended: a click on a tracked link whose href does not start with `#`, or is `#`
followed by an identifier that is the id of no element, or more generally is a selector for
which `document.querySelector` finds no element or raises, leaves the whole page state as it
was (the active flag of every tracked link, the hamburger flag, the menu flag) and requests no
scroll. -/
theorem click_unresolved_link (host : Host) (p : Page) (i : Nat) (l : Link) (href : String)
    (hl : p.navLinks[i]? = some l) (hh : l.href = some href)
    (hun : startsWithHash href = false ∨
      (∃ id, href = "#" ++ id ∧ isIdent id.data = true ∧ ∀ e ∈ p.elements, e.id ≠ id) ∨
      ∀ S, querySelector host p href ≠ .ok (some S)) :
    (clickHandler host p i).page = p ∧ (clickHandler host p i).scrolls = [] := by
  apply clickHandler_not_found
  intro l1 t hl1 hh1 hs S hq
  rw [hl] at hl1
  cases hl1
  rw [hh] at hh1
  cases hh1
  rcases hun with hno | ⟨id, rfl, hid, hnone⟩ | hnot
  · rw [hno] at hs
    cases hs
  · rw [querySelector_ident host p id hid] at hq
    have hfind : (p.elements.find? fun e => e.id == id) = none := by
      rw [List.find?_eq_none]
      intro e he
      simpa using hnone e he
    rw [hfind] at hq
    cases hq
  · exact hnot S hq

/-- Witness of C5, amended: the footer link to the missing id `nowhere`. -/
theorem click_unresolved_link_witness :
    (clickHandler silentHost mixedPage 1).page = mixedPage ∧
      (clickHandler silentHost mixedPage 1).scrolls = [] :=
  click_unresolved_link silentHost mixedPage 1 ⟨some "#nowhere", false, false⟩ "#nowhere"
    (by decide) rfl (Or.inr (Or.inl ⟨"nowhere", by decide, by decide, by decide⟩))

/-- C9 fails on the code: without a `.hamburger` element a click on the link of section `B`
requests the scroll, then raises a `TypeError` at `hamburger.classList.remove`, before the
active link is updated: the link of `A` stays active and the clicked link stays inactive. -/
theorem click_without_hamburger_raises (host : Host) :
    (clickHandler host noHamburgerPage 1).error = some JsError.typeError ∧
      (clickHandler host noHamburgerPage 1).scrolls = [300 - 80] ∧
      (clickHandler host noHamburgerPage 1).page.navLinks.map (fun l => l.active)
        = [true, false, false] := by
  have hq : querySelector host noHamburgerPage "#B" = .ok (some ⟨true, "B", 300, 400⟩) := by
    rw [show ("#B" : String) = "#" ++ "B" from by decide,
      querySelector_ident host noHamburgerPage "B" (by decide)]
    rfl
  have hfound := @clickHandler_found host noHamburgerPage 1 ⟨some "#B", true, false⟩ "#B"
    ⟨true, "B", 300, 400⟩ 80 (by decide) rfl (by decide) hq rfl
  rw [hfound]
  decide

/-- C6: if at most one tracked link is active at the start, then after every finite sequence
of scroll and link-click events, in any order, on any layout and whatever the browser answers
to the selectors, at most one is active. -/
theorem at_most_one_active_invariant (host : Host) (p : Page) (es : List Event)
    (h : AtMostOneActive p.navLinks) : AtMostOneActive (run host p es).navLinks := by
  induction es generalizing p with
  | nil => exact h
  | cons e es ih => exact ih (step host p e) (atMostOneActive_step host p e h)

/-- Witness of C6: a click, two scrolls and a click on the example page. -/
theorem at_most_one_active_invariant_witness :
    AtMostOneActive
      (run silentHost (examplePage [false, true, false] 150)
        [.click 2, .scroll 200, .scroll 5000, .click 0]).navLinks :=
  at_most_one_active_invariant silentHost (examplePage [false, true, false] 150)
    [.click 2, .scroll 200, .scroll 5000, .click 0] (by unfold AtMostOneActive; decide)

/-- C7: delivering the same scroll or click event twice in a row leaves the page (the active
flag of every tracked link, the hamburger flag and the menu flag) as delivering it once. -/
theorem event_idempotent (host : Host) (p : Page) (e : Event) :
    step host (step host p e) e = step host p e := by
  cases e with
  | scroll y =>
    simp only [step]
    rw [scrollHandler_idem]
  | click i => exact clickHandler_idem host p i

/-- C4, as stated, fails: with a header of height 200 and the non-overlapping sections
`A:[0,300)`, `B:[300,700)`, `C:[700,1200)`, a click on the anchor of `B` requests position 100,
and the scroll event at that position has effective position 250, inside `A`: the anchor of `A`
ends up active and the anchor of `B` inactive. -/
theorem click_then_scroll_counterexample :
    (examplePage [false, false, false] 200).headerHeight = some 200 ∧
      (sections (examplePage [false, false, false] 200)).Pairwise
        (fun s t => 0 < s.offsetHeight ∧ 0 < t.offsetHeight ∧
          s.offsetTop + s.offsetHeight ≤ t.offsetTop) ∧
      queryNavAnchor (examplePage [false, false, false] 200).navLinks "#B" = some 1 ∧
      (clickHandler silentHost (examplePage [false, false, false] 200) 1).scrolls
        = [300 - 200] ∧
      (scrollHandler silentHost
        (clickHandler silentHost (examplePage [false, false, false] 200) 1).page
        (max 0 (300 - 200))).page.navLinks.map (fun l => l.active) = [true, false, false] := by
  decide

/-- C4, amended: let `h` be the header height and `S` a section such that the effective
position after the click, `max 0 (S.offsetTop - h) + 150`, lies in the range of `S` (as it does
when `h ≤ 150` and `S` is taller than `150 - h`), `S` is disjoint from every other section,
`document.querySelector` finds `S` for `#` followed by its id (the id is an identifier and `S`
the first element with it; or the id holds no double quote, backslash, line feed, carriage
return, form feed or NUL and the browser answers `S`), and link `i` is the first anchor inside
`nav` with that href.  Then a click on link `i` requests the scroll to `S.offsetTop - h`, and
the scroll event at that position clamped at 0 raises nothing and leaves link `i` as the only
active tracked link. -/
theorem click_then_scroll_keeps_highlight (host : Host) (p : Page) (i : Nat) (l : Link)
    (S : Element) (h : Int) (hhead : p.headerHeight = some h)
    (htop : S.offsetTop ≤ max 0 (S.offsetTop - h) + 150)
    (htall : max 0 (S.offsetTop - h) + 150 < S.offsetTop + S.offsetHeight)
    (hS : S ∈ sections p)
    (hres : (isIdent S.id.data = true ∧
        ∃ before after, p.elements = before ++ S :: after ∧ ∀ e ∈ before, e.id ≠ S.id) ∨
      (S.id.data.all isPlainChar = true ∧
        querySelector host p ("#" ++ S.id) = .ok (some S)))
    (hdisj : ∀ s ∈ sections p, s ≠ S →
      s.offsetTop + s.offsetHeight ≤ S.offsetTop ∨ S.offsetTop + S.offsetHeight ≤ s.offsetTop)
    (hl : p.navLinks[i]? = some l) (hnav : l.inNav = true) (hh : l.href = some ("#" ++ S.id))
    (hfirst : ∀ k l0, k < i → p.navLinks[k]? = some l0 →
      ¬ (l0.inNav = true ∧ l0.href = some ("#" ++ S.id))) :
    (clickHandler host p i).scrolls = [S.offsetTop - h] ∧
      (scrollHandler host (clickHandler host p i).page (max 0 (S.offsetTop - h))).error
        = none ∧
      OnlyActive
        (scrollHandler host (clickHandler host p i).page
          (max 0 (S.offsetTop - h))).page.navLinks i := by
  have hplain : S.id.data.all isPlainChar = true := by
    rcases hres with ⟨hid, _⟩ | ⟨hp, _⟩
    · exact all_isPlainChar_of_isIdent hid
    · exact hp
  have hq : querySelector host p ("#" ++ S.id) = .ok (some S) := by
    rcases hres with ⟨hid, before, after, hel, hbefore⟩ | ⟨_, hq⟩
    · rw [querySelector_ident host p S.id hid, hel,
        find?_first _ before after S (by simp) fun e he => by simpa using hbefore e he]
    · exact hq
  have e1 := clickHandler_found hl hh (startsWithHash_append S.id) hq hhead
  have hscroll : (clickHandler host p i).scrolls = [S.offsetTop - h] := by
    rw [e1]
    cases p.navMenu with
    | none => rfl
    | some m =>
      cases p.hamburger with
      | none => rfl
      | some b => rfl
  have hsecs : sections (clickHandler host p i).page = sections p := by
    unfold sections
    rw [clickHandler_elements]
  have hSin : inView (max 0 (S.offsetTop - h) + 150) S = true := by
    rw [inView_iff]
    exact ⟨htop, htall⟩
  have honly : ∀ s ∈ sections p, inView (max 0 (S.offsetTop - h) + 150) s = true → s = S := by
    intro s hs hv
    by_contra hne
    have hd := hdisj s hs hne
    rw [inView_iff] at hv
    omega
  have hall : ∀ s ∈ sections (clickHandler host p i).page,
      inView (max 0 (S.offsetTop - h) + 150) s = true → s.id.data.all isPlainChar = true := by
    intro s hs hv
    rw [hsecs] at hs
    rw [honly s hs hv]
    exact hplain
  rw [scrollHandler_plain host _ _ hall, hsecs]
  refine ⟨hscroll, rfl, ?_⟩
  cases hlast : lastInView (max 0 (S.offsetTop - h) + 150) (sections p) with
  | none =>
    rw [inView_of_lastInView_none hlast S hS] at hSin
    cases hSin
  | some t =>
    obtain ⟨ht, hv⟩ := lastInView_some hlast
    have htS : t = S := honly t ht hv
    subst htS
    simp only
    rw [highlight_congr t.id (clickHandler_removeActiveAll host p i)]
    obtain ⟨j, l1, hl1, hn1, hh1, hmin, hact⟩ :=
      onlyActive_highlight ⟨l, List.getElem?_mem hl, hnav, hh⟩
    have hji : j = i := by
      rcases Nat.lt_trichotomy j i with hlt | heq | hgt
      · exact absurd ⟨hn1, hh1⟩ (hfirst j l1 hlt hl1)
      · exact heq
      · exact absurd ⟨hnav, hh⟩ (hmin i l hgt hl)
    rw [← hji]
    exact hact

/-- Witness of C4, amended: a header of height 200 on the example page, a click on the anchor
of `A` (top 0), then the scroll event at 0. -/
theorem click_then_scroll_keeps_highlight_witness :
    (scrollHandler silentHost
        (clickHandler silentHost (examplePage [false, true, false] 200) 0).page
        0).page.navLinks.map (fun l => l.active) = [true, false, false] ∧
      (clickHandler silentHost (examplePage [false, true, false] 200) 0).scrolls
        = [(Element.mk true "A" 0 300).offsetTop - 200] ∧
      (scrollHandler silentHost
        (clickHandler silentHost (examplePage [false, true, false] 200) 0).page
        (max 0 ((Element.mk true "A" 0 300).offsetTop - 200))).error = none ∧
      OnlyActive
        (scrollHandler silentHost
          (clickHandler silentHost (examplePage [false, true, false] 200) 0).page
          (max 0 ((Element.mk true "A" 0 300).offsetTop - 200))).page.navLinks 0 :=
  ⟨by decide,
    click_then_scroll_keeps_highlight silentHost (examplePage [false, true, false] 200) 0
      ⟨some "#A", true, false⟩ ⟨true, "A", 0, 300⟩ 200 rfl (by decide) (by decide)
      (by decide)
      (Or.inl ⟨by decide, [], [⟨true, "B", 300, 400⟩, ⟨true, "C", 700, 500⟩], by decide,
        by decide⟩)
      (by decide) (by decide) rfl rfl
      (fun k _ hk _ => absurd hk (Nat.not_lt_zero k))⟩

/-- C10: after a click on the header of accordion item `i`, every other item is closed and
item `i` has the negation of its earlier flag; hence at most one item is open, and when item
`i` was closed before the click (as when only another item was open) exactly item `i` is open
afterwards. -/
theorem accordion_click_exclusive (items : List Bool) (i : Nat) (hi : i < items.length) :
    (accordionClick items i).length = items.length ∧
      (∀ j b, j ≠ i → (accordionClick items i)[j]? = some b → b = false) ∧
      (accordionClick items i)[i]? = some (!items[i]) ∧
      (accordionClick items i).count true ≤ 1 ∧
      (items[i] = false →
        ∀ j b, (accordionClick items i)[j]? = some b → (b = true ↔ j = i)) := by
  have hothers : ∀ j b, j ≠ i → (accordionClick items i)[j]? = some b → b = false := by
    intro j b hj hb
    rw [getElem?_accordionClick] at hb
    cases hjj : items[j]? with
    | none => simp [hjj] at hb
    | some c =>
      simp only [hjj, Option.map_some', if_neg hj, Option.some.injEq] at hb
      exact hb.symm
  have hself : (accordionClick items i)[i]? = some (!items[i]) := by
    rw [getElem?_accordionClick, List.getElem?_eq_getElem hi]
    simp
  refine ⟨by simp [accordionClick], hothers, hself, count_true_le_one _ i hothers, ?_⟩
  intro hclosed j b hb
  by_cases hji : j = i
  · subst hji
    rw [hself, hclosed] at hb
    simpa using (Option.some.inj hb).symm
  · have := hothers j b hji hb
    simp [this, hji]

/-- Witness of C10: item 1 open, click on item 2 (indices 0 and 1) leaves exactly item 2 open. -/
theorem accordion_click_exclusive_witness :
    accordionClick [true, false, false] 1 = [false, true, false] ∧
      (accordionClick [true, false, false] 1).length = [true, false, false].length ∧
      (∀ j b, j ≠ 1 → (accordionClick [true, false, false] 1)[j]? = some b → b = false) ∧
      (accordionClick [true, false, false] 1)[1]? = some (not ([true, false, false][1])) ∧
      (accordionClick [true, false, false] 1).count true ≤ 1 ∧
      ([true, false, false][1] = false →
        ∀ j b, (accordionClick [true, false, false] 1)[j]? = some b → (b = true ↔ j = 1)) :=
  ⟨by decide, accordion_click_exclusive [true, false, false] 1 (by decide)⟩

end Script
